import Mathlib

/-!
Verification of the conduit MCP server message coordinator against its
specification.  The definitions below are a shallow embedding of
`src/conduit/server/coordinator.py`.  Components whose source is not part of
the repository snapshot (the `ClientManager`, the `MessageParser`, the client
session and the protocol codecs) are modelled from the specification; each
such definition says so in its doc comment.
-/

namespace Conduit

/-- JSON-like values as decoded wire payloads (numbers modelled as integers;
the claims never depend on fractional values). -/
inductive Json where
  | null : Json
  | bool (b : Bool) : Json
  | num (n : Int) : Json
  | str (s : String) : Json
  | arr (xs : List Json) : Json
  | obj (kvs : List (String × Json)) : Json

mutual

/-- Decidable equality on `Json` (the derive handler does not support the
nested occurrence under `List`). -/
def Json.decEq : (a b : Json) → Decidable (a = b)
  | .null, .null => .isTrue rfl
  | .bool a, .bool b =>
    if h : a = b then .isTrue (by rw [h])
    else .isFalse (fun k => h (by injection k))
  | .num a, .num b =>
    if h : a = b then .isTrue (by rw [h])
    else .isFalse (fun k => h (by injection k))
  | .str a, .str b =>
    if h : a = b then .isTrue (by rw [h])
    else .isFalse (fun k => h (by injection k))
  | .arr xs, .arr ys =>
    match Json.decEqList xs ys with
    | .isTrue h => .isTrue (by rw [h])
    | .isFalse h => .isFalse (fun k => h (by injection k))
  | .obj xs, .obj ys =>
    match Json.decEqObj xs ys with
    | .isTrue h => .isTrue (by rw [h])
    | .isFalse h => .isFalse (fun k => h (by injection k))
  | .null, .bool _ | .null, .num _ | .null, .str _ | .null, .arr _
  | .null, .obj _ | .bool _, .null | .bool _, .num _ | .bool _, .str _
  | .bool _, .arr _ | .bool _, .obj _ | .num _, .null | .num _, .bool _
  | .num _, .str _ | .num _, .arr _ | .num _, .obj _ | .str _, .null
  | .str _, .bool _ | .str _, .num _ | .str _, .arr _ | .str _, .obj _
  | .arr _, .null | .arr _, .bool _ | .arr _, .num _ | .arr _, .str _
  | .arr _, .obj _ | .obj _, .null | .obj _, .bool _ | .obj _, .num _
  | .obj _, .str _ | .obj _, .arr _ => .isFalse (fun k => by injection k)

/-- Decidable equality on lists of `Json`. -/
def Json.decEqList : (xs ys : List Json) → Decidable (xs = ys)
  | [], [] => .isTrue rfl
  | [], _ :: _ => .isFalse (fun k => by injection k)
  | _ :: _, [] => .isFalse (fun k => by injection k)
  | x :: xs, y :: ys =>
    match Json.decEq x y with
    | .isFalse h => .isFalse (fun k => by injection k with k1 k2; exact h k1)
    | .isTrue h1 =>
      match Json.decEqList xs ys with
      | .isTrue h2 => .isTrue (by rw [h1, h2])
      | .isFalse h => .isFalse (fun k => by injection k with k1 k2; exact h k2)

/-- Decidable equality on JSON object entry lists. -/
def Json.decEqObj : (xs ys : List (String × Json)) → Decidable (xs = ys)
  | [], [] => .isTrue rfl
  | [], _ :: _ => .isFalse (fun k => by injection k)
  | _ :: _, [] => .isFalse (fun k => by injection k)
  | (k₁, x) :: xs, (k₂, y) :: ys =>
    if hk : k₁ = k₂ then
      match Json.decEq x y with
      | .isFalse h =>
        .isFalse (fun k => by
          injection k with k1 k2
          exact h (congrArg Prod.snd k1))
      | .isTrue h1 =>
        match Json.decEqObj xs ys with
        | .isTrue h2 => .isTrue (by rw [hk, h1, h2])
        | .isFalse h => .isFalse (fun k => by injection k with k1 k2; exact h k2)
    else
      .isFalse (fun k => by
        injection k with k1 k2
        exact hk (congrArg Prod.fst k1))

end

instance : DecidableEq Json := Json.decEq

/-- JSON-RPC request id: a string or an integer. -/
inductive RequestId where
  | str (s : String)
  | num (n : Int)
deriving DecidableEq, Repr

/-- Embeds `conduit.protocol.base.Error`: code, message, optional structured data. -/
structure Error where
  code : Int
  message : String
  data : Option Json := none
deriving DecidableEq

/-- A typed request: method string plus method-specific params (opaque here;
the coordinator only inspects `method`). -/
structure Request where
  method : String
  params : Json
deriving DecidableEq

/-- A typed result, opaque to the coordinator. -/
structure Result where
  payload : Json
deriving DecidableEq

/-- Outcome of a handler or of response parsing: a `Result` or an `Error`. -/
inductive ResultOrError where
  | result (r : Result)
  | error (e : Error)
deriving DecidableEq

/-- Modelled from the spec: JSON-RPC reserved code `-32601` (method not
found); the constant lives in `conduit/protocol/base.py`, which is not in the
snapshot. -/
def METHOD_NOT_FOUND : Int := -32601

/-- Modelled from the spec: JSON-RPC reserved code `-32603` (internal error);
the constant lives in `conduit/protocol/base.py`, which is not in the
snapshot. -/
def INTERNAL_ERROR : Int := -32603

/-- Modelled from the spec: the MCP-specific protocol-version-mismatch code.
The spec does not pin its numeric value; the coordinator only compares
against it, so any value distinct from the reserved JSON-RPC codes is
faithful. -/
def PROTOCOL_VERSION_MISMATCH : Int := -32001

/-- Frames handed to the transport `send` (the image of `to_wire` on the
message kinds the coordinator emits). -/
inductive Frame where
  | request (id : String) (method : String) (params : Json)
  | response (id : RequestId) (result : Result)
  | errorResponse (id : RequestId) (err : Error)
  | notification (method : String) (params : Json)
deriving DecidableEq

/-- Wire form of `CancelledNotification(request_id, reason)` sent by the
timeout path (`conduit/protocol/common.py`, method
`notifications/cancelled`). -/
def cancelledNotificationFrame (request_id : String) (reason : String) : Frame :=
  .notification "notifications/cancelled"
    (.obj [("requestId", .str request_id), ("reason", .str reason)])

/-! ### Association lists

The per-client tables are Python dicts; we model them as association lists
with first-match lookup. -/

/-- First-match lookup in an association list. -/
def assocGet {κ α : Type} [DecidableEq κ] : List (κ × α) → κ → Option α
  | [], _ => none
  | (k', v) :: rest, k => if k' = k then some v else assocGet rest k

/-- Insert-or-replace in an association list (Python dict assignment). -/
def assocSet {κ α : Type} [DecidableEq κ] : List (κ × α) → κ → α → List (κ × α)
  | [], k, v => [(k, v)]
  | (k', v') :: rest, k, v =>
    if k' = k then (k, v) :: rest else (k', v') :: assocSet rest k v

/-- Remove every binding of a key (Python dict `pop`). -/
def assocRemove {κ α : Type} [DecidableEq κ] (kvs : List (κ × α)) (k : κ) :
    List (κ × α) :=
  kvs.filter (fun kv => kv.1 ≠ k)

/-! ### Client manager state

`conduit/server/client_manager.py` is not in the snapshot; the table
operations below are modelled from spec §3 (data model) and §4.3
(operations). -/

/-- Inbound table entry: the original request and its running handler task
(tasks are identified by an opaque id in the embedding). -/
structure InboundEntry where
  request : Request
  taskId : Nat
deriving DecidableEq

/-- Outbound table entry: the original request and its completion handle. -/
structure OutboundEntry where
  request : Request
  futureId : Nat
deriving DecidableEq

/-- Per-client state: inbound and outbound request tables. -/
structure ClientState where
  inbound : List (RequestId × InboundEntry)
  outbound : List (String × OutboundEntry)
deriving DecidableEq

/-- The client manager: the map from client id to its state. -/
structure ClientManager where
  clients : List (String × ClientState)
deriving DecidableEq

/-- Modelled from the spec: `get_client`. -/
def get_client (m : ClientManager) (cid : String) : Option ClientState :=
  assocGet m.clients cid

/-- Modelled from the spec: `register_client` creates a fresh, empty client
state. -/
def register_client (m : ClientManager) (cid : String) : ClientManager :=
  ⟨assocSet m.clients cid ⟨[], []⟩⟩

/-- Embeds `MessageCoordinator._ensure_client_registered`: register the client iff it
is unknown. -/
def ensure_client_registered (m : ClientManager) (cid : String) : ClientManager :=
  match get_client m cid with
  | some _ => m
  | none => register_client m cid

/-- Modelled from the spec: `track_request_from_client` inserts into the
client's inbound table and fails if an entry with that id already exists
(duplicate id is a protocol violation). -/
def track_request_from_client (m : ClientManager) (cid : String)
    (rid : RequestId) (req : Request) (tid : Nat) : Except String ClientManager :=
  match get_client m cid with
  | none => .error "unknown client"
  | some cs =>
    match assocGet cs.inbound rid with
    | some _ => .error "duplicate request id"
    | none =>
      .ok ⟨assocSet m.clients cid
        { cs with inbound := assocSet cs.inbound rid ⟨req, tid⟩ }⟩

/-- Modelled from the spec: `untrack_request_from_client`, atomic
remove-and-return. -/
def untrack_request_from_client (m : ClientManager) (cid : String)
    (rid : RequestId) : Option InboundEntry × ClientManager :=
  match get_client m cid with
  | none => (none, m)
  | some cs =>
    match assocGet cs.inbound rid with
    | none => (none, m)
    | some entry =>
      (some entry,
        ⟨assocSet m.clients cid { cs with inbound := assocRemove cs.inbound rid }⟩)

/-- Modelled from the spec: `track_request_to_client` inserts into the
client's outbound table (ids are coordinator-generated UUIDs, so no duplicate
check is specified). -/
def track_request_to_client (m : ClientManager) (cid : String) (rid : String)
    (req : Request) (fid : Nat) : ClientManager :=
  match get_client m cid with
  | none => m
  | some cs =>
    ⟨assocSet m.clients cid
      { cs with outbound := assocSet cs.outbound rid ⟨req, fid⟩ }⟩

/-- Modelled from the spec: `untrack_request_to_client` removes the outbound
entry. -/
def untrack_request_to_client (m : ClientManager) (cid : String)
    (rid : String) : ClientManager :=
  match get_client m cid with
  | none => m
  | some cs =>
    ⟨assocSet m.clients cid { cs with outbound := assocRemove cs.outbound rid }⟩

/-- Modelled from the spec: `cleanup_client` cancels every inbound task,
resolves every outbound handle with a cancellation error, and drops the
client; on the tables this drops the client's entry. -/
def cleanup_client (m : ClientManager) (cid : String) : ClientManager :=
  ⟨assocRemove m.clients cid⟩

/-- Modelled from the spec: `cleanup_all_clients` folds `cleanup_client` over
all clients. -/
def cleanup_all_clients (m : ClientManager) : ClientManager :=
  m.clients.foldl (fun acc kv => cleanup_client acc kv.1) m

/-! ### Coordinator lifecycle (`start` / `stop` / loop-done callback) -/

/-- Coordinator lifecycle state: whether the message-loop task exists and is
not done, plus the client manager it owns. -/
structure Coordinator where
  loopActive : Bool
  manager : ClientManager

/-- Embeds `MessageCoordinator.running`: the loop task exists and is not done. -/
def Coordinator.running (c : Coordinator) : Bool := c.loopActive

/-- Embeds `MessageCoordinator.stop`: no-op when not running; otherwise cancel the
loop task, await it, clear the task slot, and run `cleanup_all_clients`. -/
def Coordinator.stop (c : Coordinator) : Coordinator :=
  if c.running then ⟨false, cleanup_all_clients c.manager⟩ else c

/-- Embeds `MessageCoordinator._on_message_loop_done`: done-callback of the loop
task, fired on every termination of the loop (normal completion, transport
exception, or cancellation): clears the task slot and runs
`cleanup_all_clients`. -/
def on_message_loop_done (c : Coordinator) : Coordinator :=
  ⟨false, cleanup_all_clients c.manager⟩

/-! ### Outbound request send (`send_request`) -/

/-- Outcome of a transport `send`: returns, or raises a connection error. -/
inductive SendOutcome where
  | ok
  | raises (e : String)
deriving DecidableEq, Repr

/-- Outcome of awaiting the completion handle under `asyncio.wait_for`:
resolved with a result-or-error, timed out, or the awaiting task was
cancelled. -/
inductive AwaitOutcome where
  | resolved (r : ResultOrError)
  | timeout
  | cancelled
deriving DecidableEq

/-- How `send_request` exits towards its caller. -/
inductive SendRequestExit where
  | value (r : ResultOrError)
  | notRunningError
  | sendError (e : String)
  | timeoutError
  | cancelledError
deriving DecidableEq

/-- Observable effect of one `send_request` call: final tables, frames
delivered to the transport in order, and the exit. -/
structure SendRequestTrace where
  manager : ClientManager
  sent : List Frame
  exit : SendRequestExit

/-- Embeds `MessageCoordinator._handle_request_timeout`: build a
`CancelledNotification(request_id, reason="Request timed out")` and send it
via `send_notification`; any exception (coordinator stopped, transport
failure) is caught and logged.  Returns the frames actually delivered. -/
def handle_request_timeout (running : Bool) (request_id : String)
    (notifSend : SendOutcome) : List Frame :=
  if running then
    match notifSend with
    | .ok => [cancelledNotificationFrame request_id "Request timed out"]
    | .raises _ => []
  else []

/-- Embeds `MessageCoordinator.send_request`.  The scheduling-dependent parts are
explicit parameters: `rid`/`fid` stand for the fresh UUID and future,
`sendOut` is the transport outcome of sending the request frame, `awaitOut`
the outcome of awaiting the completion handle, and `notifSendOut` the
transport outcome of the timeout-path cancellation notification.  Faithful to
the `try/except TimeoutError/finally` structure of the source: the `finally`
untracks the outbound entry on every exit after tracking. -/
def send_request (running : Bool) (m : ClientManager) (cid : String)
    (req : Request) (rid : String) (fid : Nat) (sendOut : SendOutcome)
    (awaitOut : AwaitOutcome) (notifSendOut : SendOutcome) : SendRequestTrace :=
  if running then
    let m₁ := ensure_client_registered m cid
    let m₂ := track_request_to_client m₁ cid rid req fid
    match sendOut with
    | .raises e => ⟨untrack_request_to_client m₂ cid rid, [], .sendError e⟩
    | .ok =>
      let reqFrame := Frame.request rid req.method req.params
      match awaitOut with
      | .resolved r =>
        ⟨untrack_request_to_client m₂ cid rid, [reqFrame], .value r⟩
      | .timeout =>
        ⟨untrack_request_to_client m₂ cid rid,
          reqFrame :: handle_request_timeout running rid notifSendOut,
          .timeoutError⟩
      | .cancelled =>
        ⟨untrack_request_to_client m₂ cid rid, [reqFrame], .cancelledError⟩
  else ⟨m, [], .notRunningError⟩

/-- Lookup of the outbound entry for `(cid, rid)`. -/
def outboundLookup (m : ClientManager) (cid : String) (rid : String) :
    Option OutboundEntry :=
  match get_client m cid with
  | none => none
  | some cs => assocGet cs.outbound rid

/-! ### Inbound request routing (`_route_request`) -/

/-- Observable effect of `MessageCoordinator._route_request` on one parsed
request: final tables, frames delivered, whether a handler task was spawned,
and any exception propagating out of `_route_request` into the message
loop. -/
structure RouteTrace where
  manager : ClientManager
  sent : List Frame
  spawnedTask : Bool
  exn : Option String

/-- Embeds `MessageCoordinator._route_request`: no registered handler sends a
`METHOD_NOT_FOUND` error response; otherwise the handler task is created
first and then tracked.  The `track_request_from_client` call has no
surrounding exception handler in the source, so a tracking failure
propagates. -/
def route_request (handlers : List String) (m : ClientManager) (cid : String)
    (rid : RequestId) (req : Request) (tid : Nat) : RouteTrace :=
  if handlers.contains req.method then
    match track_request_from_client m cid rid req tid with
    | .ok m' => ⟨m', [], true, none⟩
    | .error e => ⟨m, [], true, some e⟩
  else
    ⟨m, [Frame.errorResponse rid
        ⟨METHOD_NOT_FOUND, "No handler for method: " ++ req.method, none⟩],
      false, none⟩

/-- The message loop's per-message `try/except Exception`: an exception
raised while routing a single message is printed and the loop continues;
only transport-stream failures end the loop. -/
def message_loop_continues (exn : Option String) : Bool :=
  match exn with
  | some _ => true
  | none => true

/-- Lookup of the inbound entry for `(cid, rid)`. -/
def inboundLookup (m : ClientManager) (cid : String) (rid : RequestId) :
    Option InboundEntry :=
  match get_client m cid with
  | none => none
  | some cs => assocGet cs.inbound rid

/-! ### Inbound notification handling (`_handle_notification`) -/

/-- Observable effect of `MessageCoordinator._handle_notification`: frames
delivered, whether a detached handler task was spawned, and any exception
propagating into the message loop. -/
structure NotifTrace where
  sent : List Frame
  spawned : Bool
  exn : Option String
deriving DecidableEq

/-- Embeds `MessageCoordinator._handle_notification`.  `parse_notification` is
modelled from the spec: unknown notification methods yield `None`
(`knownMethods` is the parser's registry), and the coordinator then returns
without touching the transport; with no registered handler it logs and
returns; otherwise it spawns a detached task running the handler. -/
def handle_notification (knownMethods handlerMethods : List String)
    (method : String) : NotifTrace :=
  if knownMethods.contains method then
    if handlerMethods.contains method then ⟨[], true, none⟩
    else ⟨[], false, none⟩
  else ⟨[], false, none⟩

/-- Execution of the detached notification-handler task: the handler body
produces no wire response (the coordinator sends nothing on the notification
path), and an exception raised by the handler stays inside the task — the
runtime logs it and nothing propagates into the message loop. -/
structure NotifTaskTrace where
  sent : List Frame
  propagatedToLoop : Bool
  logged : Bool
deriving DecidableEq

/-- Run the detached notification-handler task with the given handler
outcome. -/
def run_notification_task (handlerRaises : Bool) : NotifTaskTrace :=
  if handlerRaises then ⟨[], false, true⟩ else ⟨[], false, false⟩

/-! ### Handler execution (`_execute_request_handler`) -/

/-- Outcome of awaiting the registered request handler. -/
inductive HandlerOutcome where
  | result (r : Result)
  | error (e : Error)
  | raises (exn : String)
deriving DecidableEq

/-- Observable effect of one `_execute_request_handler` task: final tables,
frames delivered, frames handed to `transport.send` (delivered or not),
whether `cleanup_client` ran, an exception escaping the handler task, and
whether the inbound message loop was terminated (never: the handler runs in
its own task). -/
structure ExecTrace where
  manager : ClientManager
  sent : List Frame
  attempted : List Frame
  cleanedUp : Bool
  taskExn : Option String
  loopTerminated : Bool

/-- Wire echo of a request, as placed in the `data` field of an internal
error. -/
def encodeRequest (req : Request) : Json :=
  .obj [("method", .str req.method), ("params", req.params)]

/-- The `Error(INTERNAL_ERROR, "Problem handling request", data={"request":
request})` built in the `except` branch of `_execute_request_handler`. -/
def internalProblemError (req : Request) : Error :=
  ⟨INTERNAL_ERROR, "Problem handling request",
    some (.obj [("request", encodeRequest req)])⟩

/-- The `except Exception` branch of `_execute_request_handler`: build the
internal error and hand it to `_send_error`; if that send itself raises, the
exception escapes the handler task. -/
def internal_error_path (m : ClientManager) (rid : RequestId) (req : Request)
    (errSendOut : SendOutcome) (sentSoFar attemptedSoFar : List Frame)
    (cleanedUp : Bool) : ExecTrace :=
  let frame := Frame.errorResponse rid (internalProblemError req)
  match errSendOut with
  | .ok =>
    ⟨m, sentSoFar ++ [frame], attemptedSoFar ++ [frame], cleanedUp, none, false⟩
  | .raises e =>
    ⟨m, sentSoFar, attemptedSoFar ++ [frame], cleanedUp, some e, false⟩

/-- Embeds `MessageCoordinator._should_disconnect_for_error`. -/
def should_disconnect_for_error (e : Error) : Bool :=
  e.code = PROTOCOL_VERSION_MISMATCH

/-- Embeds `MessageCoordinator._execute_request_handler`.  Scheduling-dependent
parts are explicit parameters: `hout` is the awaited handler outcome,
`sendOut` the transport outcome of sending the wrapped response,
`cleanupRaises` whether `cleanup_client` raises, and `errSendOut` the
transport outcome of the `except`-branch `_send_error`.  The whole `try`
body — handler await, response send, and disconnect cleanup — is covered by
the single `except Exception` branch. -/
def execute_request_handler (m : ClientManager) (cid : String)
    (rid : RequestId) (req : Request) (hout : HandlerOutcome)
    (sendOut : SendOutcome) (cleanupRaises : Bool) (errSendOut : SendOutcome) :
    ExecTrace :=
  match hout with
  | .raises _ => internal_error_path m rid req errSendOut [] [] false
  | .result r =>
    let frame := Frame.response rid r
    match sendOut with
    | .ok => ⟨m, [frame], [frame], false, none, false⟩
    | .raises _ => internal_error_path m rid req errSendOut [] [frame] false
  | .error e =>
    let frame := Frame.errorResponse rid e
    match sendOut with
    | .raises _ => internal_error_path m rid req errSendOut [] [frame] false
    | .ok =>
      if should_disconnect_for_error e then
        if cleanupRaises then
          internal_error_path m rid req errSendOut [frame] [frame] false
        else ⟨cleanup_client m cid, [frame], [frame], true, none, false⟩
      else ⟨m, [frame], [frame], false, none, false⟩

/-! ### Client session `initialize` (spec §4.5, design note in §9)

The client session source is not in the snapshot; the model below follows the
spec: a state machine `{NotStarted, InFlight(shared_handle), Done(result)}`
where the first call sends the single `initialize` request, concurrent calls
attach to the shared in-flight handle, and later calls return the cached
result without resending. -/

/-- Modelled from the spec: the idempotence state of the client session's
`initialize` (the shared in-progress awaitable with its attached waiters, or
the cached result). -/
inductive InitState where
  | notStarted
  | inFlight (waiters : Nat)
  | done (r : Json)
deriving DecidableEq

/-- Modelled from the spec: the session state `initialize` touches — the
idempotence state plus the count of `initialize` request frames put on the
wire. -/
structure InitSession where
  init : InitState
  initFramesSent : Nat
deriving DecidableEq

/-- Modelled from the spec: one `initialize()` call.  A cached result is
returned immediately without resending; a call overlapping the pending
window attaches to the shared handle; the first call sends exactly one
`initialize` request and opens the pending window. -/
def initialize_call (s : InitSession) : InitSession × Option Json :=
  match s.init with
  | .done r => (s, some r)
  | .inFlight w => ({ s with init := .inFlight (w + 1) }, none)
  | .notStarted => (⟨.inFlight 1, s.initFramesSent + 1⟩, none)

/-- Modelled from the spec: arrival of the single `initialize` response
resolves the shared handle, caches the result, and wakes every attached
caller with that same result. -/
def resolve_init_response (s : InitSession) (r : Json) : InitSession × List Json :=
  match s.init with
  | .inFlight w => ({ s with init := .done r }, List.replicate w r)
  | _ => (s, [])

/-- Runs `n` calls that all overlap the first call's pending window. -/
def concurrent_initialize_calls : Nat → InitSession → InitSession
  | 0, s => s
  | n + 1, s => concurrent_initialize_calls n (initialize_call s).1

/-- Runs `k` serial calls after the handshake completed, collecting what each call
returns. -/
def serial_initialize_calls : Nat → InitSession → InitSession × List Json
  | 0, s => (s, [])
  | k + 1, s =>
    let (s', o) := initialize_call s
    let (s'', os) := serial_initialize_calls k s'
    (s'', o.toList ++ os)

/-- The whole scenario of the initialization tests: `n` overlapping calls,
then the server's single response carrying `r`, then `k` further serial
calls.  Returns the final session state and the results delivered to all
`n + k` callers in order. -/
def initialize_scenario (n k : Nat) (r : Json) : InitSession × List Json :=
  let s₁ := concurrent_initialize_calls n ⟨.notStarted, 0⟩
  let (s₂, rs) := resolve_init_response s₁ r
  let (s₃, rs') := serial_initialize_calls k s₂
  (s₃, rs ++ rs')

/-! ### Codec layer (spec §4.1, wire aliases §6)

The per-message codecs are not in the snapshot; the model below follows the
spec for a representative paginated request type, `ListResourcesRequest`
(`resources/list`): serialization omits fields with no value, the progress
token rides inside `_meta` under its camelCase alias `progressToken`, and
`_meta` is passthrough metadata preserved verbatim when non-empty and
dropped when empty. -/

/-- Modelled from the spec: `ListResourcesRequest` — optional pagination
cursor, optional progress token, opaque passthrough metadata. -/
structure ListResourcesRequest where
  cursor : Option String
  progress_token : Option String
  metadata : Option (List (String × Json))
deriving DecidableEq

/-- Modelled from the spec: the `_meta` wire entries — the progress token
under its `progressToken` alias first, then the passthrough metadata
verbatim. -/
def metaEntries (tok : Option String) (md : Option (List (String × Json))) :
    List (String × Json) :=
  (match tok with
   | some t => [("progressToken", Json.str t)]
   | none => []) ++ md.getD []

/-- Modelled from the spec: the `params` wire entries; fields with no value
are omitted and an empty `_meta` is dropped. -/
def paramEntries (x : ListResourcesRequest) : List (String × Json) :=
  (match x.cursor with
   | some c => [("cursor", Json.str c)]
   | none => []) ++
  (match metaEntries x.progress_token x.metadata with
   | [] => []
   | ms => [("_meta", Json.obj ms)])

/-- Modelled from the spec: `to_protocol` — serialization to the wire
payload, omitting `params` entirely when it would be empty. -/
def to_protocol (x : ListResourcesRequest) : Json :=
  Json.obj ([("method", Json.str "resources/list")] ++
    (match paramEntries x with
     | [] => []
     | ps => [("params", Json.obj ps)]))

/-- Modelled from the spec: an empty remaining `_meta` maps to no
metadata. -/
def metadataOfRest (rest : List (String × Json)) :
    Option (List (String × Json)) :=
  if rest.isEmpty then none else some rest

/-- Modelled from the spec: parse the optional `cursor` param (`none` is a
structured validation failure). -/
def parseCursor (ps : List (String × Json)) : Option (Option String) :=
  match assocGet ps "cursor" with
  | none => some none
  | some (.str c) => some (some c)
  | some _ => none

/-- Modelled from the spec: split a `_meta` object into the progress token
and the passthrough metadata. -/
def parseMetaObj (ms : List (String × Json)) :
    Option (Option String × Option (List (String × Json))) :=
  match assocGet ms "progressToken" with
  | some (.str t) =>
    some (some t, metadataOfRest (ms.filter (fun kv => kv.1 ≠ "progressToken")))
  | none =>
    some (none, metadataOfRest (ms.filter (fun kv => kv.1 ≠ "progressToken")))
  | some _ => none

/-- Modelled from the spec: parse the optional `_meta` param. -/
def parseMeta (ps : List (String × Json)) :
    Option (Option String × Option (List (String × Json))) :=
  match assocGet ps "_meta" with
  | none => some (none, none)
  | some (.obj ms) => parseMetaObj ms
  | some _ => none

/-- Modelled from the spec: `from_protocol` — constructor from the wire
object; `none` is a structured validation failure.  Envelope keys such as
`jsonrpc` and `id` are ignored, matching the tests, which feed the full wire
frame. -/
def from_protocol (w : Json) : Option ListResourcesRequest :=
  match w with
  | .obj kvs =>
    match assocGet kvs "method" with
    | some (.str m) =>
      if m = "resources/list" then
        match assocGet kvs "params" with
        | none => some ⟨none, none, none⟩
        | some (.obj ps) =>
          match parseCursor ps, parseMeta ps with
          | some cur, some (tok, md) => some ⟨cur, tok, md⟩
          | _, _ => none
        | some _ => none
      else none
    | _ => none
  | _ => none

/-- Metadata in the codec's canonical domain: when present it is non-empty
(the wire drops empty `_meta`) and does not claim the `progressToken` key
(that wire key belongs to the progress-token field). -/
def wellformedMeta (md : Option (List (String × Json))) : Bool :=
  match md with
  | none => true
  | some kvs => !kvs.isEmpty && kvs.all (fun kv => kv.1 ≠ "progressToken")

/-- A typed value in the codec's canonical domain. -/
def wellformedValue (x : ListResourcesRequest) : Bool :=
  wellformedMeta x.metadata

/-- Canonical `_meta` wire object: non-empty, the progress token (a string,
under its alias) first when present, and no other entry under the
`progressToken` key. -/
def canonicalMeta (ms : List (String × Json)) : Bool :=
  match ms with
  | [] => false
  | (_, .str _) :: rest =>
    rest.all (fun kv => kv.1 ≠ "progressToken")
  | kv :: rest =>
    decide (kv.1 ≠ "progressToken")
      && rest.all (fun kv => kv.1 ≠ "progressToken")

/-- Canonical `params` wire object: the optional cursor then the optional
canonical `_meta`, not both absent. -/
def canonicalParams (ps : List (String × Json)) : Bool :=
  match ps with
  | [(k, .str _)] => k == "cursor"
  | [(k, .obj ms)] => k == "_meta" && canonicalMeta ms
  | [(k₁, .str _), (k₂, .obj ms)] =>
    k₁ == "cursor" && k₂ == "_meta" && canonicalMeta ms
  | _ => false

/-- Canonical wire payload of a `resources/list` request. -/
def canonicalWire (w : Json) : Bool :=
  match w with
  | .obj [(mk, .str mv)] => mk == "method" && mv == "resources/list"
  | .obj [(mk, .str mv), (pk, .obj ps)] =>
    mk == "method" && mv == "resources/list" && pk == "params"
      && canonicalParams ps
  | _ => false

/-! ### Theorems: helper lemmas first, then one theorem per claim -/

theorem assocGet_assocSet_self {κ α : Type} [DecidableEq κ]
    (l : List (κ × α)) (k : κ) (v : α) : assocGet (assocSet l k v) k = some v := by
  induction l with
  | nil => simp [assocSet, assocGet]
  | cons kv rest ih =>
    by_cases h : kv.1 = k
    · simp [assocSet, assocGet, h]
    · simpa [assocSet, assocGet, h] using ih

theorem assocGet_assocRemove_self {κ α : Type} [DecidableEq κ]
    (l : List (κ × α)) (k : κ) : assocGet (assocRemove l k) k = none := by
  induction l with
  | nil => simp [assocRemove, assocGet]
  | cons kv rest ih =>
    by_cases h : kv.1 = k
    · simpa [assocRemove, List.filter, h] using ih
    · simpa [assocRemove, List.filter, h, assocGet] using ih

theorem foldl_cleanup_eq_nil (keys : List (String × ClientState))
    (acc : ClientManager)
    (hsub : ∀ kv ∈ acc.clients, kv.1 ∈ keys.map Prod.fst) :
    (keys.foldl (fun acc kv => cleanup_client acc kv.1) acc).clients = [] := by
  induction keys generalizing acc with
  | nil =>
    have : acc.clients = [] := by
      cases h : acc.clients with
      | nil => rfl
      | cons kv rest =>
        exact absurd (hsub kv (by simp [h])) (by simp)
    simpa using this
  | cons k ks ih =>
    refine ih (cleanup_client acc k.1) ?_
    intro kv hkv
    have hmem : kv ∈ acc.clients ∧ ¬ kv.1 = k.1 := by
      simpa [cleanup_client, assocRemove, List.mem_filter] using hkv
    have := hsub kv hmem.1
    simp only [List.map_cons, List.mem_cons] at this
    rcases this with h | h
    · exact absurd h hmem.2
    · simpa using h

theorem cleanup_all_clients_empty (m : ClientManager) :
    (cleanup_all_clients m).clients = [] := by
  refine foldl_cleanup_eq_nil m.clients m ?_
  intro kv hkv
  exact List.mem_map_of_mem Prod.fst hkv

theorem outboundLookup_untrack_after_track (m : ClientManager) (cid : String)
    (rid : String) (req : Request) (fid : Nat) :
    outboundLookup
      (untrack_request_to_client
        (track_request_to_client (ensure_client_registered m cid) cid rid req fid)
        cid rid) cid rid = none := by
  unfold ensure_client_registered
  cases hg : assocGet m.clients cid with
  | none =>
    simp [track_request_to_client, untrack_request_to_client, outboundLookup,
      get_client, register_client, hg, assocGet_assocSet_self,
      assocGet_assocRemove_self]
  | some cs =>
    simp [track_request_to_client, untrack_request_to_client, outboundLookup,
      get_client, hg, assocGet_assocSet_self, assocGet_assocRemove_self]

theorem concurrent_calls_inFlight (n w c : Nat) :
    concurrent_initialize_calls n ⟨.inFlight w, c⟩ = ⟨.inFlight (w + n), c⟩ := by
  induction n generalizing w with
  | zero => simp [concurrent_initialize_calls]
  | succ n ih =>
    rw [concurrent_initialize_calls, initialize_call]
    simpa [Nat.add_assoc, Nat.add_comm 1 n] using ih (w + 1)

theorem serial_calls_done (k c : Nat) (r : Json) :
    serial_initialize_calls k ⟨.done r, c⟩ = (⟨.done r, c⟩, List.replicate k r) := by
  induction k with
  | zero => simp [serial_initialize_calls]
  | succ k ih => simp [serial_initialize_calls, initialize_call, ih, List.replicate_succ]

theorem assocGet_eq_none_of_all_ne {α : Type} (l : List (String × α))
    (k : String) (h : l.all (fun kv => kv.1 ≠ k) = true) :
    assocGet l k = none := by
  induction l with
  | nil => rfl
  | cons kv rest ih =>
    simp only [List.all_cons, Bool.and_eq_true, decide_eq_true_eq] at h
    simp [assocGet, h.1, ih h.2]

theorem filter_ne_eq_self {α : Type} (l : List (String × α)) (k : String)
    (h : l.all (fun kv => kv.1 ≠ k) = true) :
    l.filter (fun kv => kv.1 ≠ k) = l := by
  induction l with
  | nil => rfl
  | cons kv rest ih =>
    simp only [List.all_cons, Bool.and_eq_true, decide_eq_true_eq] at h
    have hp : (fun kv => decide (kv.1 ≠ k)) kv = true := by simpa using h.1
    simp only [List.filter_cons, hp, if_true, ih h.2]

theorem parseMetaObj_metaEntries (tok : Option String)
    (md : Option (List (String × Json))) (hwf : wellformedMeta md = true) :
    parseMetaObj (metaEntries tok md) = some (tok, md) := by
  cases md with
  | none =>
    cases tok with
    | none => rfl
    | some t => simp [metaEntries, parseMetaObj, assocGet, metadataOfRest]
  | some kvs =>
    simp only [wellformedMeta, Bool.and_eq_true] at hwf
    have hget := assocGet_eq_none_of_all_ne kvs "progressToken" hwf.2
    have hfil := filter_ne_eq_self kvs "progressToken" hwf.2
    have hne : kvs.isEmpty = false := by
      cases h : kvs.isEmpty
      · rfl
      · rw [h] at hwf; simp at hwf
    cases tok with
    | none =>
      have hme : metaEntries none (some kvs) = kvs := by simp [metaEntries]
      rw [hme]
      simp only [parseMetaObj, hget, hfil, metadataOfRest, hne]
      simp
    | some t =>
      have hme : metaEntries (some t) (some kvs)
          = ("progressToken", Json.str t) :: kvs := by simp [metaEntries]
      rw [hme]
      simp only [parseMetaObj, assocGet, List.filter_cons, metadataOfRest]
      simp only [hfil, hne]
      simp [hne]

theorem from_protocol_to_protocol (x : ListResourcesRequest)
    (hwf : wellformedValue x = true) :
    from_protocol (to_protocol x) = some x := by
  obtain ⟨cur, tok, md⟩ := x
  cases md with
  | none =>
    cases tok with
    | none =>
      cases cur with
      | none => rfl
      | some c =>
        simp [to_protocol, paramEntries, metaEntries, from_protocol,
          parseCursor, parseMeta, assocGet]
    | some t =>
      cases cur with
      | none =>
        simp [to_protocol, paramEntries, metaEntries, from_protocol,
          parseCursor, parseMeta, parseMetaObj, assocGet, metadataOfRest]
      | some c =>
        simp [to_protocol, paramEntries, metaEntries, from_protocol,
          parseCursor, parseMeta, parseMetaObj, assocGet, metadataOfRest]
  | some kvs =>
    cases kvs with
    | nil => simp [wellformedValue, wellformedMeta] at hwf
    | cons a as =>
      have hpm := parseMetaObj_metaEntries tok (some (a :: as))
        (by simpa [wellformedValue] using hwf)
      cases tok with
      | none =>
        have hme : metaEntries none (some (a :: as)) = a :: as := by
          simp [metaEntries]
        rw [hme] at hpm
        cases cur with
        | none =>
          simp [to_protocol, paramEntries, metaEntries, from_protocol,
            parseCursor, parseMeta, assocGet, hpm]
        | some c =>
          simp [to_protocol, paramEntries, metaEntries, from_protocol,
            parseCursor, parseMeta, assocGet, hpm]
      | some t =>
        have hme : metaEntries (some t) (some (a :: as))
            = ("progressToken", Json.str t) :: a :: as := by simp [metaEntries]
        rw [hme] at hpm
        cases cur with
        | none =>
          simp [to_protocol, paramEntries, metaEntries, from_protocol,
            parseCursor, parseMeta, assocGet, hpm]
        | some c =>
          simp [to_protocol, paramEntries, metaEntries, from_protocol,
            parseCursor, parseMeta, assocGet, hpm]

theorem wellformedMeta_cons (kv : String × Json) (tl : List (String × Json))
    (hall : ((kv :: tl).all (fun kv => kv.1 ≠ "progressToken")) = true) :
    wellformedMeta (some (kv :: tl)) = true := by
  simp only [wellformedMeta, List.isEmpty_cons, Bool.not_false, Bool.true_and]
  exact hall

theorem meta_image_no_token (kv : String × Json) (tl : List (String × Json))
    (hall : ((kv :: tl).all (fun kv => kv.1 ≠ "progressToken")) = true) :
    wellformedMeta (some (kv :: tl)) = true
      ∧ parseMetaObj (kv :: tl) = some (none, some (kv :: tl))
      ∧ metaEntries none (some (kv :: tl)) = kv :: tl := by
  have hget := assocGet_eq_none_of_all_ne _ _ hall
  have hfil := filter_ne_eq_self _ _ hall
  refine ⟨wellformedMeta_cons kv tl hall, ?_, by simp [metaEntries]⟩
  simp only [parseMetaObj, hget, hfil, metadataOfRest, List.isEmpty_cons]
  simp

theorem meta_image_token (v : String) (tl : List (String × Json))
    (hall : (tl.all (fun kv => kv.1 ≠ "progressToken")) = true) :
    wellformedMeta (metadataOfRest tl) = true
      ∧ parseMetaObj (("progressToken", Json.str v) :: tl)
          = some (some v, metadataOfRest tl)
      ∧ metaEntries (some v) (metadataOfRest tl)
          = ("progressToken", Json.str v) :: tl := by
  have hfil := filter_ne_eq_self _ _ hall
  cases tl with
  | nil =>
    refine ⟨rfl, ?_, by simp [metadataOfRest, metaEntries]⟩
    simp [parseMetaObj, assocGet, metadataOfRest]
  | cons b bs =>
    have hmd : metadataOfRest (b :: bs) = some (b :: bs) := by
      simp [metadataOfRest]
    refine ⟨hmd ▸ wellformedMeta_cons b bs hall, ?_, ?_⟩
    · have hget : assocGet (("progressToken", Json.str v) :: b :: bs)
          "progressToken" = some (Json.str v) := by simp [assocGet]
      have hfil₂ : (("progressToken", Json.str v) :: b :: bs).filter
          (fun kv => kv.1 ≠ "progressToken") = b :: bs := by
        rw [List.filter_cons]
        have hh : (decide
            ((("progressToken", Json.str v) : String × Json).1
              ≠ "progressToken")) = false := by simp
        rw [hh]
        simpa using hfil
      simp only [parseMetaObj, hget, hfil₂]
    · rw [hmd]
      simp [metaEntries]

theorem canonical_meta_image (ms : List (String × Json))
    (hc : canonicalMeta ms = true) :
    ∃ tok md, wellformedMeta md = true ∧ parseMetaObj ms = some (tok, md)
      ∧ metaEntries tok md = ms := by
  cases ms with
  | nil => exact absurd hc (by simp [canonicalMeta])
  | cons hd tl =>
    obtain ⟨k, jv⟩ := hd
    cases jv with
    | str v =>
      simp only [canonicalMeta] at hc
      by_cases hk : k = "progressToken"
      · subst hk
        exact ⟨some v, metadataOfRest tl, meta_image_token v tl hc⟩
      · have hall : (((k, Json.str v) :: tl).all
            (fun kv => kv.1 ≠ "progressToken")) = true := by
          simp only [List.all_cons, Bool.and_eq_true, decide_eq_true_eq]
          exact ⟨hk, hc⟩
        exact ⟨none, some ((k, Json.str v) :: tl),
          meta_image_no_token (k, Json.str v) tl hall⟩
    | null =>
      simp only [canonicalMeta, Bool.and_eq_true, decide_eq_true_eq] at hc
      have hall : (((k, Json.null) :: tl).all
          (fun kv => kv.1 ≠ "progressToken")) = true := by
        simp only [List.all_cons, Bool.and_eq_true, decide_eq_true_eq]
        exact hc
      exact ⟨none, some ((k, Json.null) :: tl),
        meta_image_no_token (k, Json.null) tl hall⟩
    | bool b =>
      simp only [canonicalMeta, Bool.and_eq_true, decide_eq_true_eq] at hc
      have hall : (((k, Json.bool b) :: tl).all
          (fun kv => kv.1 ≠ "progressToken")) = true := by
        simp only [List.all_cons, Bool.and_eq_true, decide_eq_true_eq]
        exact hc
      exact ⟨none, some ((k, Json.bool b) :: tl),
        meta_image_no_token (k, Json.bool b) tl hall⟩
    | num n =>
      simp only [canonicalMeta, Bool.and_eq_true, decide_eq_true_eq] at hc
      have hall : (((k, Json.num n) :: tl).all
          (fun kv => kv.1 ≠ "progressToken")) = true := by
        simp only [List.all_cons, Bool.and_eq_true, decide_eq_true_eq]
        exact hc
      exact ⟨none, some ((k, Json.num n) :: tl),
        meta_image_no_token (k, Json.num n) tl hall⟩
    | arr xs =>
      simp only [canonicalMeta, Bool.and_eq_true, decide_eq_true_eq] at hc
      have hall : (((k, Json.arr xs) :: tl).all
          (fun kv => kv.1 ≠ "progressToken")) = true := by
        simp only [List.all_cons, Bool.and_eq_true, decide_eq_true_eq]
        exact hc
      exact ⟨none, some ((k, Json.arr xs) :: tl),
        meta_image_no_token (k, Json.arr xs) tl hall⟩
    | obj kvs =>
      simp only [canonicalMeta, Bool.and_eq_true, decide_eq_true_eq] at hc
      have hall : (((k, Json.obj kvs) :: tl).all
          (fun kv => kv.1 ≠ "progressToken")) = true := by
        simp only [List.all_cons, Bool.and_eq_true, decide_eq_true_eq]
        exact hc
      exact ⟨none, some ((k, Json.obj kvs) :: tl),
        meta_image_no_token (k, Json.obj kvs) tl hall⟩

theorem canonical_wire_image (w : Json) (hc : canonicalWire w = true) :
    ∃ x, wellformedValue x = true ∧ from_protocol w = some x
      ∧ to_protocol x = w := by
  unfold canonicalWire at hc
  split at hc
  · rename_i mk mv
    simp only [Bool.and_eq_true, beq_iff_eq] at hc
    obtain ⟨rfl, rfl⟩ := hc
    exact ⟨⟨none, none, none⟩, rfl, rfl, rfl⟩
  · rename_i mk mv pk ps
    simp only [Bool.and_eq_true, beq_iff_eq] at hc
    obtain ⟨⟨⟨rfl, rfl⟩, rfl⟩, hps⟩ := hc
    unfold canonicalParams at hps
    split at hps
    · rename_i k c
      rw [show k = "cursor" from by simpa using hps]
      refine ⟨⟨some c, none, none⟩, rfl, ?_, ?_⟩
      · simp [from_protocol, parseCursor, parseMeta, assocGet]
      · simp [to_protocol, paramEntries, metaEntries]
    · rename_i k ms
      simp only [Bool.and_eq_true, beq_iff_eq] at hps
      obtain ⟨rfl, hcm⟩ := hps
      obtain ⟨tok, md, hwf, hpm, hme⟩ := canonical_meta_image ms hcm
      refine ⟨⟨none, tok, md⟩, by simpa [wellformedValue] using hwf, ?_, ?_⟩
      · simp [from_protocol, parseCursor, parseMeta, assocGet, hpm]
      · cases hm : ms with
        | nil => rw [hm] at hcm; simp [canonicalMeta] at hcm
        | cons a as =>
          rw [hm] at hme
          simp [to_protocol, paramEntries, hme]
    · rename_i k₁ c k₂ ms
      simp only [Bool.and_eq_true, beq_iff_eq] at hps
      obtain ⟨⟨rfl, rfl⟩, hcm⟩ := hps
      obtain ⟨tok, md, hwf, hpm, hme⟩ := canonical_meta_image ms hcm
      refine ⟨⟨some c, tok, md⟩, by simpa [wellformedValue] using hwf, ?_, ?_⟩
      · simp [from_protocol, parseCursor, parseMeta, assocGet, hpm]
      · cases hm : ms with
        | nil => rw [hm] at hcm; simp [canonicalMeta] at hcm
        | cons a as =>
          rw [hm] at hme
          simp [to_protocol, paramEntries, hme]
    · exact absurd hps (by simp)
  · exact absurd hc (by simp)

/-- C1: on a running coordinator, a `send_request` whose awaited completion
handle times out sends a `CancelledNotification` with that request id and
reason "Request timed out" to the peer after the request frame and raises a
timeout error to the caller; and on every exit after tracking (resolved
result or error, transport send failure, timeout, cancellation) the outbound
entry for `(client_id, request_id)` is removed from the outbound table. -/
theorem send_request_timeout_notifies_and_always_untracks
    (m : ClientManager) (cid : String) (req : Request) (rid : String)
    (fid : Nat) (sendOut : SendOutcome) (awaitOut : AwaitOutcome)
    (notifSendOut : SendOutcome) :
    ((send_request true m cid req rid fid .ok .timeout .ok).sent
        = [Frame.request rid req.method req.params,
            cancelledNotificationFrame rid "Request timed out"]
      ∧ (send_request true m cid req rid fid .ok .timeout .ok).exit
          = .timeoutError)
    ∧ outboundLookup
        (send_request true m cid req rid fid sendOut awaitOut
          notifSendOut).manager cid rid = none := by
  refine ⟨⟨?_, ?_⟩, ?_⟩
  · simp [send_request, handle_request_timeout]
  · simp [send_request]
  · cases sendOut <;> cases awaitOut <;>
      simp [send_request, outboundLookup_untrack_after_track]

/-- C9: if the transport `send` raises after the outbound entry was tracked
and before the completion handle is awaited, the exception propagates to the
caller, no frame was delivered, and the `finally` clause still removes the
outbound entry — a failed send never leaves a stale entry. -/
theorem send_request_send_failure_propagates_and_untracks
    (m : ClientManager) (cid : String) (req : Request) (rid : String)
    (fid : Nat) (e : String) (awaitOut : AwaitOutcome)
    (notifSendOut : SendOutcome) :
    (send_request true m cid req rid fid (.raises e) awaitOut
        notifSendOut).exit = .sendError e
    ∧ (send_request true m cid req rid fid (.raises e) awaitOut
        notifSendOut).sent = []
    ∧ outboundLookup
        (send_request true m cid req rid fid (.raises e) awaitOut
          notifSendOut).manager cid rid = none := by
  refine ⟨by simp [send_request], by simp [send_request], ?_⟩
  simp [send_request, outboundLookup_untrack_after_track]

/-- C2: leaving `Running` always runs `cleanup_all_clients`: after `stop` on
a running coordinator no client state remains (in particular every client's
inbound and outbound tables are gone), and the loop task's done callback —
fired on every termination of the loop, normal, exceptional or cancelled —
leaves the same empty state. -/
theorem stop_and_loop_done_empty_all_tables (mgr : ClientManager)
    (c : Coordinator) :
    (Coordinator.stop ⟨true, mgr⟩).manager.clients = []
    ∧ (∀ cid, get_client (Coordinator.stop ⟨true, mgr⟩).manager cid = none)
    ∧ (on_message_loop_done c).manager.clients = []
    ∧ (∀ cid, get_client (on_message_loop_done c).manager cid = none) := by
  have h1 : (Coordinator.stop ⟨true, mgr⟩).manager = cleanup_all_clients mgr :=
    rfl
  have h2 : (on_message_loop_done c).manager = cleanup_all_clients c.manager :=
    rfl
  refine ⟨?_, ?_, ?_, ?_⟩
  · rw [h1, cleanup_all_clients_empty]
  · intro cid
    unfold get_client
    rw [h1, cleanup_all_clients_empty]
    rfl
  · rw [h2, cleanup_all_clients_empty]
  · intro cid
    unfold get_client
    rw [h2, cleanup_all_clients_empty]
    rfl

/-- C3 counterexample: with a handler registered for `tools/list` and the
inbound entry for id 7 still tracked, routing a second request with id 7
from the same client sends no frame at all — in particular no JSON-RPC error
response — while the duplicate tracking failure propagates into the message
loop. -/
theorem route_request_duplicate_counterexample :
    (route_request ["tools/list"]
        ⟨[("c1", ⟨[(RequestId.num 7, ⟨⟨"tools/list", Json.null⟩, 5⟩)], []⟩)]⟩
        "c1" (RequestId.num 7) ⟨"tools/list", Json.null⟩ 9).sent = []
    ∧ (route_request ["tools/list"]
        ⟨[("c1", ⟨[(RequestId.num 7, ⟨⟨"tools/list", Json.null⟩, 5⟩)], []⟩)]⟩
        "c1" (RequestId.num 7) ⟨"tools/list", Json.null⟩ 9).exn
        = some "duplicate request id" := by
  constructor <;> rfl

/-- C3 (amended): for every inbound request whose id already has an entry in
the client's inbound table, tracking fails but the duplicate is not answered
with a JSON-RPC error response: `_route_request` sends no frame, the
tracking exception propagates to the message loop which catches it and
continues, the tables are unchanged, and the original entry stays intact
(a handler task for the duplicate has, however, already been spawned). -/
theorem route_request_duplicate_is_dropped (handlers : List String)
    (m : ClientManager) (cid : String) (rid : RequestId) (req : Request)
    (tid : Nat) (entry : InboundEntry)
    (hh : handlers.contains req.method = true)
    (hdup : inboundLookup m cid rid = some entry) :
    (route_request handlers m cid rid req tid).manager = m
    ∧ (route_request handlers m cid rid req tid).sent = []
    ∧ (route_request handlers m cid rid req tid).exn
        = some "duplicate request id"
    ∧ inboundLookup (route_request handlers m cid rid req tid).manager cid rid
        = some entry
    ∧ (route_request handlers m cid rid req tid).spawnedTask = true
    ∧ message_loop_continues (route_request handlers m cid rid req tid).exn
        = true := by
  have hcs : ∃ cs, get_client m cid = some cs
      ∧ assocGet cs.inbound rid = some entry := by
    unfold inboundLookup at hdup
    cases hg : get_client m cid with
    | none => rw [hg] at hdup; simp at hdup
    | some cs => exact ⟨cs, rfl, by rw [hg] at hdup; exact hdup⟩
  obtain ⟨cs, hg, he⟩ := hcs
  have htrack : track_request_from_client m cid rid req tid
      = .error "duplicate request id" := by
    unfold track_request_from_client
    rw [hg]
    simp [he]
  have hroute : route_request handlers m cid rid req tid
      = ⟨m, [], true, some "duplicate request id"⟩ := by
    unfold route_request
    rw [hh, htrack]
    simp
  refine ⟨by rw [hroute], by rw [hroute], by rw [hroute], ?_,
    by rw [hroute], by rw [hroute]; rfl⟩
  rw [hroute]
  exact hdup

/-- C3 amended-claim witness at a concrete duplicate. -/
theorem route_request_duplicate_is_dropped_witness :
    (route_request ["ping"]
        ⟨[("c2", ⟨[(RequestId.str "a", ⟨⟨"ping", Json.null⟩, 1⟩)], []⟩)]⟩
        "c2" (RequestId.str "a") ⟨"ping", Json.null⟩ 2).manager
      = ⟨[("c2", ⟨[(RequestId.str "a", ⟨⟨"ping", Json.null⟩, 1⟩)], []⟩)]⟩
    ∧ (route_request ["ping"]
        ⟨[("c2", ⟨[(RequestId.str "a", ⟨⟨"ping", Json.null⟩, 1⟩)], []⟩)]⟩
        "c2" (RequestId.str "a") ⟨"ping", Json.null⟩ 2).sent = []
    ∧ (route_request ["ping"]
        ⟨[("c2", ⟨[(RequestId.str "a", ⟨⟨"ping", Json.null⟩, 1⟩)], []⟩)]⟩
        "c2" (RequestId.str "a") ⟨"ping", Json.null⟩ 2).exn
        = some "duplicate request id"
    ∧ inboundLookup (route_request ["ping"]
        ⟨[("c2", ⟨[(RequestId.str "a", ⟨⟨"ping", Json.null⟩, 1⟩)], []⟩)]⟩
        "c2" (RequestId.str "a") ⟨"ping", Json.null⟩ 2).manager
        "c2" (RequestId.str "a") = some ⟨⟨"ping", Json.null⟩, 1⟩
    ∧ (route_request ["ping"]
        ⟨[("c2", ⟨[(RequestId.str "a", ⟨⟨"ping", Json.null⟩, 1⟩)], []⟩)]⟩
        "c2" (RequestId.str "a") ⟨"ping", Json.null⟩ 2).spawnedTask = true
    ∧ message_loop_continues (route_request ["ping"]
        ⟨[("c2", ⟨[(RequestId.str "a", ⟨⟨"ping", Json.null⟩, 1⟩)], []⟩)]⟩
        "c2" (RequestId.str "a") ⟨"ping", Json.null⟩ 2).exn = true :=
  route_request_duplicate_is_dropped ["ping"]
    ⟨[("c2", ⟨[(RequestId.str "a", ⟨⟨"ping", Json.null⟩, 1⟩)], []⟩)]⟩
    "c2" (RequestId.str "a") ⟨"ping", Json.null⟩ 2 ⟨⟨"ping", Json.null⟩, 1⟩
    (by rfl) (by rfl)

/-- C4: processing an inbound notification never sends a frame to the
transport: unknown methods are dropped without a wire error, and a handler
exception stays inside the detached task — it is logged, produces no wire
response, and nothing propagates into the message loop. -/
theorem notification_never_sends (known handlers : List String)
    (method : String) (handlerRaises : Bool) :
    (handle_notification known handlers method).sent = []
    ∧ (handle_notification known handlers method).exn = none
    ∧ (run_notification_task handlerRaises).sent = []
    ∧ (run_notification_task handlerRaises).propagatedToLoop = false
    ∧ (run_notification_task true).logged = true := by
  refine ⟨?_, ?_, ?_, ?_, rfl⟩
  · unfold handle_notification
    split
    · split <;> rfl
    · rfl
  · unfold handle_notification
    split
    · split <;> rfl
    · rfl
  · cases handlerRaises <;> rfl
  · cases handlerRaises <;> rfl

/-- C5: when the handler returns an `Error`, the error response frame is
sent first, and `cleanup_client` tears the client down iff the code equals
`PROTOCOL_VERSION_MISMATCH`; for every other code the manager is
untouched. -/
theorem handler_error_disconnect_iff_version_mismatch (m : ClientManager)
    (cid : String) (rid : RequestId) (req : Request) (e : Error) :
    ((execute_request_handler m cid rid req (.error e) .ok false .ok).cleanedUp
        = true ↔ e.code = PROTOCOL_VERSION_MISMATCH)
    ∧ (execute_request_handler m cid rid req (.error e) .ok false
        .ok).sent.head? = some (Frame.errorResponse rid e)
    ∧ (execute_request_handler m cid rid req (.error e) .ok false .ok).manager
        = (if e.code = PROTOCOL_VERSION_MISMATCH then cleanup_client m cid
            else m) := by
  by_cases hc : e.code = PROTOCOL_VERSION_MISMATCH <;>
    simp [execute_request_handler, should_disconnect_for_error, hc]

/-- C6: a handler exception yields exactly one error response for that
request id carrying `INTERNAL_ERROR = -32603` with a `data` field echoing
the original request; the client is not cleaned up, the tables are
unchanged, and the inbound message loop is not terminated. -/
theorem handler_exception_sends_internal_error (m : ClientManager)
    (cid : String) (rid : RequestId) (req : Request) (exn : String)
    (sendOut : SendOutcome) (cleanupRaises : Bool) :
    (execute_request_handler m cid rid req (.raises exn) sendOut cleanupRaises
        .ok).sent = [Frame.errorResponse rid (internalProblemError req)]
    ∧ (internalProblemError req).code = -32603
    ∧ (internalProblemError req).data
        = some (.obj [("request", encodeRequest req)])
    ∧ (execute_request_handler m cid rid req (.raises exn) sendOut
        cleanupRaises .ok).cleanedUp = false
    ∧ (execute_request_handler m cid rid req (.raises exn) sendOut
        cleanupRaises .ok).manager = m
    ∧ (execute_request_handler m cid rid req (.raises exn) sendOut
        cleanupRaises .ok).loopTerminated = false := by
  refine ⟨?_, rfl, rfl, ?_, ?_, ?_⟩ <;>
    simp [execute_request_handler, internal_error_path]

/-- C10: any exception inside the `try` body of `_execute_request_handler` —
the handler raising, the send of the successful response failing, or the
disconnect cleanup failing — routes to the single `except` branch, which
attempts an `INTERNAL_ERROR` response echoing the request; the inbound
message loop is never terminated by it. -/
theorem exec_any_exception_attempts_internal_error (m : ClientManager)
    (cid : String) (rid : RequestId) (req : Request) (hout : HandlerOutcome)
    (sendOut : SendOutcome) (cleanupRaises : Bool) (errSendOut : SendOutcome)
    (hexn : (∃ s, hout = .raises s) ∨ (∃ s, sendOut = .raises s)
      ∨ (∃ e, hout = .error e ∧ e.code = PROTOCOL_VERSION_MISMATCH
          ∧ sendOut = .ok ∧ cleanupRaises = true)) :
    Frame.errorResponse rid (internalProblemError req)
        ∈ (execute_request_handler m cid rid req hout sendOut cleanupRaises
            errSendOut).attempted
    ∧ (execute_request_handler m cid rid req hout sendOut cleanupRaises
        errSendOut).loopTerminated = false := by
  rcases hexn with ⟨s, rfl⟩ | ⟨s, rfl⟩ | ⟨e, rfl, hpv, rfl, rfl⟩
  · cases errSendOut <;> simp [execute_request_handler, internal_error_path]
  · cases hout <;> cases errSendOut <;>
      simp [execute_request_handler, internal_error_path]
  · cases errSendOut <;>
      simp [execute_request_handler, internal_error_path,
        should_disconnect_for_error, hpv]

/-- C10 witness: a raising handler at a concrete input. -/
theorem exec_any_exception_attempts_internal_error_witness :
    Frame.errorResponse (RequestId.num 1)
        (internalProblemError ⟨"tools/call", Json.null⟩)
      ∈ (execute_request_handler ⟨[]⟩ "c1" (RequestId.num 1)
          ⟨"tools/call", Json.null⟩ (.raises "boom") .ok false .ok).attempted
    ∧ (execute_request_handler ⟨[]⟩ "c1" (RequestId.num 1)
        ⟨"tools/call", Json.null⟩ (.raises "boom") .ok false
        .ok).loopTerminated = false :=
  exec_any_exception_attempts_internal_error ⟨[]⟩ "c1" (RequestId.num 1)
    ⟨"tools/call", Json.null⟩ (.raises "boom") .ok false .ok
    (Or.inl ⟨"boom", rfl⟩)

/-- C7: across `n ≥ 1` calls overlapping the first call's pending window and
`k` further serial calls, exactly one `initialize` request frame is sent on
the wire and every one of the `n + k` callers receives the same result. -/
theorem initialize_idempotent (n k : Nat) (r : Json) (hn : 1 ≤ n) :
    (initialize_scenario n k r).1.initFramesSent = 1
    ∧ (initialize_scenario n k r).2 = List.replicate (n + k) r := by
  cases n with
  | zero => exact absurd hn (by simp)
  | succ m =>
    have h1 : concurrent_initialize_calls (m + 1) ⟨.notStarted, 0⟩
        = ⟨.inFlight (m + 1), 1⟩ := by
      rw [concurrent_initialize_calls]
      have h := concurrent_calls_inFlight m 1 1
      rw [Nat.add_comm 1 m] at h
      exact h
    have h2 : initialize_scenario (m + 1) k r
        = (⟨.done r, 1⟩, List.replicate (m + 1) r ++ List.replicate k r) := by
      unfold initialize_scenario
      rw [h1]
      simp [resolve_init_response, serial_calls_done]
    rw [h2]
    exact ⟨rfl, (List.replicate_add (m + 1) k r).symm⟩

/-- C7 witness: three overlapping calls then two serial calls. -/
theorem initialize_idempotent_witness :
    (initialize_scenario 3 2 (Json.str "ok")).1.initFramesSent = 1
    ∧ (initialize_scenario 3 2 (Json.str "ok")).2
        = List.replicate 5 (Json.str "ok") :=
  initialize_idempotent 3 2 (Json.str "ok") (by decide)

/-- C8 counterexample: the typed round-trip fails at a value whose metadata
is the empty object — encoding drops the empty `_meta`, as the spec itself
requires, and decoding yields no metadata, so `decode(encode(x)) ≠ x`. -/
theorem roundtrip_fails_on_empty_metadata :
    from_protocol (to_protocol ⟨none, none, some []⟩)
        = some ⟨none, none, none⟩
    ∧ from_protocol (to_protocol ⟨none, none, some []⟩)
        ≠ some (⟨none, none, some []⟩ : ListResourcesRequest) := by
  constructor
  · rfl
  · decide

/-- C8 (amended): the codec round-trips exactly on the canonical domain: for
every value whose metadata is absent or non-empty (and does not claim the
`progressToken` wire key) `decode(encode(x)) = x`, and every canonical wire
form is decoded and re-encoded to itself, `encode(decode(w)) = w`.  The sole
departure from the claim is a value whose metadata is present but empty: its
encoding drops `_meta` and it decodes back with no metadata. -/
theorem codec_roundtrip_on_canonical_domain :
    (∀ x : ListResourcesRequest, wellformedValue x = true →
      from_protocol (to_protocol x) = some x)
    ∧ (∀ w : Json, canonicalWire w = true →
      ∃ x : ListResourcesRequest,
        from_protocol w = some x ∧ to_protocol x = w) := by
  constructor
  · exact from_protocol_to_protocol
  · intro w hc
    obtain ⟨x, _, hx1, hx2⟩ := canonical_wire_image w hc
    exact ⟨x, hx1, hx2⟩

/-- C8 amended-claim witness: one concrete value and one concrete canonical
wire form. -/
theorem codec_roundtrip_witness :
    from_protocol (to_protocol ⟨some "abc", some "123",
        some [("trace", Json.str "on")]⟩)
      = some ⟨some "abc", some "123", some [("trace", Json.str "on")]⟩
    ∧ ∃ x : ListResourcesRequest,
        from_protocol (Json.obj [("method", Json.str "resources/list"),
          ("params", Json.obj [("cursor", Json.str "abc")])]) = some x
        ∧ to_protocol x = Json.obj [("method", Json.str "resources/list"),
            ("params", Json.obj [("cursor", Json.str "abc")])] :=
  ⟨codec_roundtrip_on_canonical_domain.1 _ (by decide),
    codec_roundtrip_on_canonical_domain.2 _ (by decide)⟩

end Conduit

